import Mathlib

/-!
# retrogram~soapysdr: the acquisition / peak-hold / pacing / render / key loop

A shallow embedding of the main loop of `src/retrogram-soapysdr.cpp`
(lines 192-366) and theorems about it.

Conventions of the embedding.

* `double` and `float` program variables (`rate`, `freq`, `step`, `frame_rate`,
  `ref_lvl`, `dyn_rng`, the dB values of a spectrum frame) are exact rationals
  `ℚ`; rounding, infinities and NaN are outside the model.
* `high_resolution_clock` time points are integer tick counts in nanoseconds;
  the successive readings of `now()` are inputs of an iteration.
* Everything the loop obtains from outside (the log-power frame returned by
  `ascii_art_dft::log_pwr_dft`, the terminal size `COLS` / `LINES`, the return
  code of the device call, the keys that arrived) is an input of the
  iteration, see `IterInput`; `ascii_art_dft::dft_to_plot` is a parameter.
* An uncaught C++ exception ends the program: `Option`, with `none` for it.
-/

namespace Retrogram

/-! ## Program state -/

/-- The variables of `main` that live across loop iterations (lines 58-65,
183, 192) together with the terminal's pending input bytes, which `getch`
consumes. -/
structure State where
  rate : ℚ
  freq : ℚ
  step : ℚ
  frame_rate : ℚ
  ref_lvl : ℚ
  dyn_rng : ℚ
  show_controls : Bool
  peak_hold : Bool
  ch : Int
  loop : Bool
  last_lpdft : List ℚ
  next_refresh : Int
  keys : List Int
deriving DecidableEq

/-- The two device calls the loop can issue. -/
inductive DevCall where
  | setSampleRate (v : ℚ)
  | setFrequency (v : ℚ)
deriving DecidableEq

/-- Observable actions of the key handling part of an iteration. -/
inductive Effect where
  | getch (r : Int)
  | call (c : DevCall)
  | failMsg (c : DevCall)
  | exit (code : Int)
deriving DecidableEq

/-! ## Error exit (lines 40-50) -/

/-- The constant `#define EXIT_ON_ERR false`. -/
def EXIT_ON_ERR : Bool := false

/-- The function `exiterr(retcode)`: the effects it has, an `exit` only when
`EXIT_ON_ERR` is set. -/
def exiterr (retcode : Int) : List Effect :=
  if EXIT_ON_ERR then [Effect.exit retcode] else []

/-! ## Peak hold (lines 224-230) -/

/-- The function `std::max(a, b)`: `(a < b) ? b : a`. -/
def stdMax (a b : ℚ) : ℚ := if a < b then b else a

/-- The loop `for (size_t i = 0; i < lpdft.size(); ++i) lpdft[i] = std::max(lpdft[i], last_lpdft[i]);`
with `n` iterations left and loop counter `i`. -/
def mergeLoop (last_lpdft : List ℚ) : Nat → Nat → List ℚ → List ℚ
  | 0, _, lpdft => lpdft
  | n + 1, i, lpdft =>
    mergeLoop last_lpdft n (i + 1)
      (lpdft.set i (stdMax (lpdft.getD i 0) (last_lpdft.getD i 0)))

/-- Lines 224-230: the frame that goes on to the refresh gate, paired with the
new value of `last_lpdft`. `raw` is the value `log_pwr_dft` returned. -/
def processFrame (peak_hold : Bool) (last_lpdft raw : List ℚ) : List ℚ × List ℚ :=
  let lpdft :=
    if peak_hold && last_lpdft.length == raw.length then
      mergeLoop last_lpdft raw.length 0 raw
    else raw
  (lpdft, lpdft)

/-! ## Key handling (lines 264-365) -/

/-- The curses constant `ERR`, returned by `getch` when no input is pending. -/
def ERR : Int := -1

/-- Character constant as the `int` that `getch` returns. -/
def key (c : Char) : Int := c.toNat

/-- The escape byte `'\033'`. -/
def ESC : Int := 27

/-- Non-blocking `getch()` (after `timeout(0)`) on the pending input bytes. -/
def getch (keys : List Int) : Int × List Int :=
  match keys with
  | [] => (ERR, [])
  | c :: rest => (c, rest)

/-- A device call with return code `ret`, followed by the
`if (... != 0) { std::cout << "... fail"; exiterr(0); }` block. -/
def deviceCall (ret : Int) (c : DevCall) : List Effect :=
  Effect.call c :: (if ret ≠ 0 then Effect.failMsg c :: exiterr 0 else [])

/-- The statement `switch(ch)` of lines 268-334, on the state in which `ch` is
already stored. -/
def keySwitch (ret : Int) (s : State) : State × List Effect :=
  if s.ch = key 'r' then
    if s.rate - s.step > 0 then
      let s1 : State := { s with rate := s.rate - s.step }
      (s1, deviceCall ret (DevCall.setSampleRate s1.rate))
    else (s, [])
  else if s.ch = key 'R' then
    let s1 : State := { s with rate := s.rate + s.step }
    (s1, deviceCall ret (DevCall.setSampleRate s1.rate))
  else if s.ch = key 'f' then
    let s1 : State := { s with freq := s.freq - s.step }
    (s1, deviceCall ret (DevCall.setFrequency s1.freq))
  else if s.ch = key 'F' then
    let s1 : State := { s with freq := s.freq + s.step }
    (s1, deviceCall ret (DevCall.setFrequency s1.freq))
  else if s.ch = key 'h' then ({ s with peak_hold := false }, [])
  else if s.ch = key 'H' then ({ s with peak_hold := true }, [])
  else if s.ch = key 'l' then ({ s with ref_lvl := s.ref_lvl - 10 }, [])
  else if s.ch = key 'L' then ({ s with ref_lvl := s.ref_lvl + 10 }, [])
  else if s.ch = key 'd' then ({ s with dyn_rng := s.dyn_rng - 10 }, [])
  else if s.ch = key 'D' then ({ s with dyn_rng := s.dyn_rng + 10 }, [])
  else if s.ch = key 's' then
    (if s.frame_rate > 1 then { s with frame_rate := s.frame_rate - 1 } else s, [])
  else if s.ch = key 'S' then ({ s with frame_rate := s.frame_rate + 1 }, [])
  else if s.ch = key 't' then
    (if s.step > 1 then { s with step := s.step / 2 } else s, [])
  else if s.ch = key 'T' then ({ s with step := s.step * 2 }, [])
  else if s.ch = key 'c' then ({ s with show_controls := false }, [])
  else if s.ch = key 'C' then ({ s with show_controls := true }, [])
  else if s.ch = key 'q' ∨ s.ch = key 'Q' then ({ s with loop := false }, [])
  else (s, [])

/-- The statement `if (ch == '\033') { getch(); switch(getch()) ... }` of lines
336-365. -/
def keyEscape (ret : Int) (s : State) : State × List Effect :=
  if s.ch = ESC then
    let g1 := getch s.keys
    let g2 := getch g1.2
    let s2 : State := { s with keys := g2.2 }
    let polls := [Effect.getch g1.1, Effect.getch g2.1]
    if g2.1 = key 'A' ∨ g2.1 = key 'C' then
      let s3 : State := { s2 with freq := s2.freq + s2.step }
      (s3, polls ++ deviceCall ret (DevCall.setFrequency s3.freq))
    else if g2.1 = key 'B' ∨ g2.1 = key 'D' then
      let s3 : State := { s2 with freq := s2.freq - s2.step }
      (s3, polls ++ deviceCall ret (DevCall.setFrequency s3.freq))
    else (s2, polls)
  else (s, [])

/-- Lines 264-365: `timeout(0); ch = getch();`, the `switch`, then the escape
sequence. `ret` is the return code of the device call, should one be issued
(an iteration issues at most one). -/
def handleKeys (ret : Int) (s : State) : State × List Effect :=
  let g := getch s.keys
  let s1 : State := { s with ch := g.1, keys := g.2 }
  let r1 := keySwitch ret s1
  let r2 := keyEscape ret r1.1
  (r2.1, Effect.getch g.1 :: (r1.2 ++ r2.2))

/-! ## Rendering (lines 242-262) -/

/-- The constructor `std::string(count, c)` applied to an `int` count: a
negative `int` converts to a `size_t` above `max_size()` and the constructor
throws `std::length_error`. -/
def stdString (count : Int) (c : Char) : Option (List Char) :=
  if count < 0 then none else some (List.replicate count.toNat c)

/-- The declared shape of `ascii_art_dft::dft_to_plot` as the loop calls it:
frame, width, height, sample rate, centre frequency, dynamic range, reference
level. The function itself is not part of the modelled source. -/
abbrev Plotter := List ℚ → Int → Int → ℚ → ℚ → ℚ → ℚ → List Char

/-- One `printw` call of the render step, with the values it formats. -/
inductive Printed where
  | title (header : List Char)
  | tuning (freqMHz rateMsps : ℚ) (peak_hold : Bool)
  | display (dyn_rng ref_lvl frame_rate stepM : ℚ)
  | border (border : List Char)
  | frame (frame : List Char)
deriving DecidableEq

/-- The height passed to `dft_to_plot`: `show_controls ? LINES-5 : LINES`. -/
def plotHeight (show_controls : Bool) (LINES : Int) : Int :=
  if show_controls then LINES - 5 else LINES

/-- The count of the `header` string: `(COLS-26)/2`, C `int` division. -/
def headerCount (COLS : Int) : Int := Int.tdiv (COLS - 26) 2

/-- The count of the `border` string: `COLS`. -/
def borderCount (COLS : Int) : Int := COLS

/-- Lines 242-262: what is drawn, or `none` when a `std::string` constructor
throws. -/
def render (plot : Plotter) (s : State) (lpdft : List ℚ) (COLS LINES : Int) :
    Option (List Printed) :=
  let frame := plot lpdft COLS (plotHeight s.show_controls LINES) s.rate s.freq s.dyn_rng s.ref_lvl
  match stdString (headerCount COLS) '-' with
  | none => none
  | some header =>
    match stdString (borderCount COLS) '-' with
    | none => none
    | some border =>
      some
        ((if s.show_controls then
            [Printed.title header,
             Printed.tuning (s.freq / 1000000) (s.rate / 1000000) s.peak_hold,
             Printed.display s.dyn_rng s.ref_lvl s.frame_rate (s.step / 1000000),
             Printed.border border]
          else []) ++ [Printed.frame frame])

/-! ## The loop (lines 194-366) -/

/-- The conversion `int64_t(x)` of a `double`: truncation toward zero. -/
def truncInt (x : ℚ) : Int := if 0 ≤ x then ⌊x⌋ else ⌈x⌉

/-- Ticks (nanoseconds) of `std::chrono::microseconds(int64_t(1e6/frame_rate))`.
For `frame_rate = 0` the source converts an infinity, which is undefined; the
model has 0 there. No key event leads from a positive frame rate to 0. -/
def framePeriod (frame_rate : ℚ) : Int := 1000 * truncInt (1000000 / frame_rate)

/-- What one iteration takes from outside the program. -/
structure IterInput where
  /-- keys that arrived at the terminal since the previous iteration -/
  typed : List Int
  /-- value of `log_pwr_dft` on this iteration's samples, if it is called -/
  lpdft : List ℚ
  /-- reading of `now()` at line 215 (taken only when peak hold is off) -/
  now1 : Int
  /-- reading of `now()` at line 234 -/
  now2 : Int
  /-- reading of `now()` at line 239 -/
  now3 : Int
  COLS : Int
  LINES : Int
  /-- return code of the device call, if one is issued -/
  ret : Int

/-- How far an iteration got. -/
inductive Outcome where
  /-- `continue` at line 216: nothing computed -/
  | skipped
  /-- `continue` at line 235: frame computed and retained, nothing drawn -/
  | held (lpdft : List ℚ)
  /-- the frame was drawn and the keyboard polled -/
  | drawn (lpdft : List ℚ) (screen : List Printed) (io : List Effect)
deriving DecidableEq

/-- One execution of the body of `while (loop)`. -/
def loopBody (plot : Plotter) (s : State) (inp : IterInput) : Option (State × Outcome) :=
  let s0 : State := { s with keys := s.keys ++ inp.typed }
  if !s0.peak_hold && decide (inp.now1 < s0.next_refresh) then some (s0, Outcome.skipped)
  else
    let pf := processFrame s0.peak_hold s0.last_lpdft inp.lpdft
    let s1 : State := { s0 with last_lpdft := pf.2 }
    if inp.now2 < s1.next_refresh then some (s1, Outcome.held pf.1)
    else
      let s2 : State := { s1 with next_refresh := inp.now3 + framePeriod s1.frame_rate }
      match render plot s2 pf.1 inp.COLS inp.LINES with
      | none => none
      | some screen =>
        let r := handleKeys inp.ret s2
        some (r.1, Outcome.drawn pf.1 screen r.2)

/-- The loop `while (loop) { ... }` over the inputs of successive iterations:
the state when the loop flag is found cleared or the inputs are used up, and
the outcomes of the iterations executed. -/
def runLoop (plot : Plotter) : State → List IterInput → Option (State × List Outcome)
  | s, [] => some (s, [])
  | s, inp :: rest =>
    if s.loop then
      match loopBody plot s inp with
      | none => none
      | some (s1, o) =>
        match runLoop plot s1 rest with
        | none => none
        | some (sf, os) => some (sf, o :: os)
    else some (s, [])


/-! ## Inputs and observations used in the statements -/

/-- The program's state on entry to the loop with the command-line defaults
(lines 71-82): rate 1e6, freq 100e6, frame rate 15, peak hold off, reference
level 0, dynamic range 80, step 1e5, controls shown; nothing retained, nothing
typed, `next_refresh` at tick 0. The source leaves `ch` uninitialised; it is 0
here and is overwritten by the first poll. -/
def defaults : State :=
  { rate := 1000000, freq := 100000000, step := 100000, frame_rate := 15,
    ref_lvl := 0, dyn_rng := 80, show_controls := true, peak_hold := false,
    ch := 0, loop := true, last_lpdft := [], next_refresh := 0, keys := [] }

/-- The device calls among the effects, in order. -/
def deviceCalls : List Effect → List DevCall
  | [] => []
  | Effect.call c :: es => c :: deviceCalls es
  | _ :: es => deviceCalls es

/-- A plotter that draws nothing, for concrete runs. -/
def blankPlot : Plotter := fun _ _ _ _ _ _ _ => []

/-- The number of `getch` calls among the effects. -/
def pollCount : List Effect → Nat
  | [] => 0
  | Effect.getch _ :: es => pollCount es + 1
  | _ :: es => pollCount es

/-- Whether the iteration drew a frame. -/
def Outcome.isDrawn : Outcome → Bool
  | Outcome.drawn _ _ _ => true
  | _ => false

/-- The frame an iteration produced (after the peak-hold step), if it got
that far. -/
def Outcome.frame : Outcome → Option (List ℚ)
  | Outcome.skipped => none
  | Outcome.held lpdft => some lpdft
  | Outcome.drawn lpdft _ _ => some lpdft

/-- The state in which the loop is after the first `n` inputs (before
iteration `n`, counting from 0), if the program got that far. -/
def stateAfter (plot : Plotter) (s : State) (ins : List IterInput) (n : Nat) : Option State :=
  (runLoop plot s (ins.take n)).map Prod.fst

/-- An iteration's inputs with the given three clock readings, nothing typed,
an empty frame, an 80 x 24 terminal and a device that accepts. -/
def quietInput (t1 t2 t3 : Int) : IterInput :=
  { typed := [], lpdft := [], now1 := t1, now2 := t2, now3 := t3,
    COLS := 80, LINES := 24, ret := 0 }

/-- Two iterations with the raw frames `[-50, -60]` and `[-40, -70]`; the
second one comes 10 ns after the first, long before the next refresh is due. -/
def peakInputs : List IterInput :=
  [{ quietInput 0 1 2 with lpdft := [-50, -60] },
   { quietInput 10 11 12 with lpdft := [-40, -70] }]

/-! ## Lemmas on the merge loop -/

/-- On rationals `std::max` is the maximum. -/
theorem stdMax_eq_max (a b : ℚ) : stdMax a b = max a b := by
  unfold stdMax
  split_ifs with h
  · exact (max_eq_right h.le).symm
  · exact (max_eq_left (not_lt.mp h)).symm

/-- The merge loop keeps the length of the frame. -/
theorem mergeLoop_length (last : List ℚ) (n i : Nat) (l : List ℚ) :
    (mergeLoop last n i l).length = l.length := by
  induction n generalizing i l with
  | zero => rfl
  | succ n ih => simp [mergeLoop, ih]

/-- Entry `j` after the merge loop ran `n` times from counter `i`. -/
theorem mergeLoop_getElem? (last : List ℚ) (n i : Nat) (l : List ℚ) (j : Nat) :
    (mergeLoop last n i l)[j]? =
      if i ≤ j ∧ j < i + n then
        (l[j]?).map (fun a => stdMax a (last.getD j 0))
      else l[j]? := by
  induction n generalizing i l with
  | zero =>
    have h0 : ¬ (i ≤ j ∧ j < i + 0) := by omega
    simp only [mergeLoop, if_neg h0]
  | succ n ih =>
    rw [mergeLoop, ih]
    by_cases hij : i = j
    · subst hij
      simp [List.getElem?_set]
      by_cases hl : i < l.length
      · simp [hl, List.getD_eq_getElem?_getD]
      · simp [hl, List.getElem?_eq_none (not_lt.mp hl)]
    · have h1 : (i + 1 ≤ j ∧ j < i + 1 + n) ↔ (i ≤ j ∧ j < i + (n + 1)) := by omega
      simp [List.getElem?_set, hij, h1]


/-! ## Lemmas on the key handling -/

/-- Case analysis on the `switch`: a property that holds of the unchanged state
and of the result of every `case` holds of `keySwitch`. The `r`, `s` and `t`
cases come with their guards. -/
theorem keySwitch_cases {P : State × List Effect → Prop} (ret : Int) (s : State)
    (same : P (s, []))
    (rateDown : s.rate - s.step > 0 →
      P ({ s with rate := s.rate - s.step }, deviceCall ret (DevCall.setSampleRate (s.rate - s.step))))
    (rateUp : P ({ s with rate := s.rate + s.step }, deviceCall ret (DevCall.setSampleRate (s.rate + s.step))))
    (freqDown : P ({ s with freq := s.freq - s.step }, deviceCall ret (DevCall.setFrequency (s.freq - s.step))))
    (freqUp : P ({ s with freq := s.freq + s.step }, deviceCall ret (DevCall.setFrequency (s.freq + s.step))))
    (peak : ∀ b, P ({ s with peak_hold := b }, []))
    (ref : ∀ v, P ({ s with ref_lvl := v }, []))
    (dyn : ∀ v, P ({ s with dyn_rng := v }, []))
    (fpsDown : s.frame_rate > 1 → P ({ s with frame_rate := s.frame_rate - 1 }, []))
    (fpsUp : P ({ s with frame_rate := s.frame_rate + 1 }, []))
    (stepHalf : s.step > 1 → P ({ s with step := s.step / 2 }, []))
    (stepDouble : P ({ s with step := s.step * 2 }, []))
    (controls : ∀ b, P ({ s with show_controls := b }, []))
    (quit : P ({ s with loop := false }, [])) :
    P (keySwitch ret s) := by
  unfold keySwitch
  by_cases h1 : s.ch = key 'r'
  · rw [if_pos h1]
    by_cases h : s.rate - s.step > 0
    · rw [if_pos h]; exact rateDown h
    · rw [if_neg h]; exact same
  rw [if_neg h1]
  by_cases h2 : s.ch = key 'R'
  · rw [if_pos h2]; exact rateUp
  rw [if_neg h2]
  by_cases h3 : s.ch = key 'f'
  · rw [if_pos h3]; exact freqDown
  rw [if_neg h3]
  by_cases h4 : s.ch = key 'F'
  · rw [if_pos h4]; exact freqUp
  rw [if_neg h4]
  by_cases h5 : s.ch = key 'h'
  · rw [if_pos h5]; exact peak false
  rw [if_neg h5]
  by_cases h6 : s.ch = key 'H'
  · rw [if_pos h6]; exact peak true
  rw [if_neg h6]
  by_cases h7 : s.ch = key 'l'
  · rw [if_pos h7]; exact ref _
  rw [if_neg h7]
  by_cases h8 : s.ch = key 'L'
  · rw [if_pos h8]; exact ref _
  rw [if_neg h8]
  by_cases h9 : s.ch = key 'd'
  · rw [if_pos h9]; exact dyn _
  rw [if_neg h9]
  by_cases h10 : s.ch = key 'D'
  · rw [if_pos h10]; exact dyn _
  rw [if_neg h10]
  by_cases h11 : s.ch = key 's'
  · rw [if_pos h11]
    by_cases h : s.frame_rate > 1
    · rw [if_pos h]; exact fpsDown h
    · rw [if_neg h]; exact same
  rw [if_neg h11]
  by_cases h12 : s.ch = key 'S'
  · rw [if_pos h12]; exact fpsUp
  rw [if_neg h12]
  by_cases h13 : s.ch = key 't'
  · rw [if_pos h13]
    by_cases h : s.step > 1
    · rw [if_pos h]; exact stepHalf h
    · rw [if_neg h]; exact same
  rw [if_neg h13]
  by_cases h14 : s.ch = key 'T'
  · rw [if_pos h14]; exact stepDouble
  rw [if_neg h14]
  by_cases h15 : s.ch = key 'c'
  · rw [if_pos h15]; exact controls false
  rw [if_neg h15]
  by_cases h16 : s.ch = key 'C'
  · rw [if_pos h16]; exact controls true
  rw [if_neg h16]
  by_cases h17 : s.ch = key 'q' ∨ s.ch = key 'Q'
  · rw [if_pos h17]; exact quit
  rw [if_neg h17]
  exact same

/-- The `switch` has no `case` for the escape byte. -/
theorem keySwitch_esc (ret : Int) (s : State) (h : s.ch = ESC) : keySwitch ret s = (s, []) := by
  simp [keySwitch, h, key, ESC]

/-- The `switch` does not assign `ch`. -/
theorem keySwitch_ch (ret : Int) (s : State) : (keySwitch ret s).1.ch = s.ch := by
  apply keySwitch_cases (P := fun r => r.1.ch = s.ch) <;> intros <;> rfl

/-- Without the escape byte in `ch` the escape branch is not entered. -/
theorem keyEscape_not_esc (ret : Int) (s : State) (h : s.ch ≠ ESC) : keyEscape ret s = (s, []) := by
  simp [keyEscape, h]

/-- The key handling is the escape branch when the polled byte is ESC and the
`switch` otherwise. -/
theorem handleKeys_eq (ret : Int) (s : State) :
    handleKeys ret s =
      if (getch s.keys).1 = ESC then
        ((keyEscape ret { s with ch := (getch s.keys).1, keys := (getch s.keys).2 }).1,
          Effect.getch (getch s.keys).1 ::
            (keyEscape ret { s with ch := (getch s.keys).1, keys := (getch s.keys).2 }).2)
      else
        ((keySwitch ret { s with ch := (getch s.keys).1, keys := (getch s.keys).2 }).1,
          Effect.getch (getch s.keys).1 ::
            (keySwitch ret { s with ch := (getch s.keys).1, keys := (getch s.keys).2 }).2) := by
  unfold handleKeys
  by_cases h : (getch s.keys).1 = ESC
  · rw [if_pos h]
    simp only []
    rw [keySwitch_esc ret _ h]
    simp
  · rw [if_neg h]
    simp only []
    rw [keyEscape_not_esc ret _ (by rw [keySwitch_ch]; exact h)]
    simp


/-- The escape branch changes the frequency and the pending bytes only. -/
theorem keyEscape_keeps (ret : Int) (s : State) :
    (keyEscape ret s).1 =
      { s with freq := (keyEscape ret s).1.freq, keys := (keyEscape ret s).1.keys } := by
  simp only [keyEscape]
  split_ifs <;> rfl

/-- The `switch` touches neither `next_refresh` nor the retained frame nor the
pending bytes. -/
theorem keySwitch_frame_state (ret : Int) (s : State) :
    (keySwitch ret s).1.next_refresh = s.next_refresh ∧
    (keySwitch ret s).1.last_lpdft = s.last_lpdft ∧
    (keySwitch ret s).1.keys = s.keys := by
  apply keySwitch_cases (P := fun r => r.1.next_refresh = s.next_refresh ∧
    r.1.last_lpdft = s.last_lpdft ∧ r.1.keys = s.keys) <;> intros <;> exact ⟨rfl, rfl, rfl⟩

/-- The key handling touches neither `next_refresh` nor the retained frame. -/
theorem handleKeys_frame_state (ret : Int) (s : State) :
    (handleKeys ret s).1.next_refresh = s.next_refresh ∧
    (handleKeys ret s).1.last_lpdft = s.last_lpdft := by
  rw [handleKeys_eq]
  split_ifs
  · simp only []
    rw [keyEscape_keeps]
    exact ⟨rfl, rfl⟩
  · simp only []
    exact ⟨(keySwitch_frame_state ret _).1, (keySwitch_frame_state ret _).2.1⟩

/-- The `switch` keeps a positive sample rate and a positive step positive. -/
theorem keySwitch_rate_step (ret : Int) (s : State) (hr : 0 < s.rate) (hs : 0 < s.step) :
    0 < (keySwitch ret s).1.rate ∧ 0 < (keySwitch ret s).1.step := by
  apply keySwitch_cases (P := fun r => 0 < r.1.rate ∧ 0 < r.1.step) <;> intros <;>
    constructor <;> simp only [] <;> first | assumption | linarith

/-- The only call among the effects of `deviceCall` is the call itself. -/
theorem call_mem_deviceCall (ret : Int) (c c0 : DevCall) :
    Effect.call c ∈ deviceCall ret c0 ↔ c = c0 := by
  simp [deviceCall, exiterr, EXIT_ON_ERR]

/-- A non-zero return code puts the failure message among the effects. -/
theorem failMsg_mem_deviceCall (ret : Int) (c0 : DevCall) (h : ret ≠ 0) :
    Effect.failMsg c0 ∈ deviceCall ret c0 := by
  simp [deviceCall, h]

/-- No effect of `deviceCall` ends the process, `EXIT_ON_ERR` being false. -/
theorem exit_not_mem_deviceCall (ret code : Int) (c0 : DevCall) :
    Effect.exit code ∉ deviceCall ret c0 := by
  simp [deviceCall, exiterr, EXIT_ON_ERR]

/-- A device call issued by `keySwitch`: the state already holds the value that
was sent, a failure is reported, nothing else changes. -/
theorem keySwitch_call (ret : Int) (s : State) (c : DevCall)
    (hc : Effect.call c ∈ (keySwitch ret s).2) :
    (ret ≠ 0 → Effect.failMsg c ∈ (keySwitch ret s).2) ∧
    (keySwitch ret s).1.loop = s.loop ∧
    ((c = DevCall.setFrequency (keySwitch ret s).1.freq ∧
        ((keySwitch ret s).1.freq = s.freq + s.step ∨ (keySwitch ret s).1.freq = s.freq - s.step) ∧
        (keySwitch ret s).1.rate = s.rate) ∨
     (c = DevCall.setSampleRate (keySwitch ret s).1.rate ∧
        ((keySwitch ret s).1.rate = s.rate + s.step ∨ (keySwitch ret s).1.rate = s.rate - s.step) ∧
        (keySwitch ret s).1.freq = s.freq)) := by
  revert hc
  apply keySwitch_cases (P := fun r => Effect.call c ∈ r.2 →
    (ret ≠ 0 → Effect.failMsg c ∈ r.2) ∧ r.1.loop = s.loop ∧
    ((c = DevCall.setFrequency r.1.freq ∧
        (r.1.freq = s.freq + s.step ∨ r.1.freq = s.freq - s.step) ∧ r.1.rate = s.rate) ∨
     (c = DevCall.setSampleRate r.1.rate ∧
        (r.1.rate = s.rate + s.step ∨ r.1.rate = s.rate - s.step) ∧ r.1.freq = s.freq)))
  case rateDown =>
    intro _ hc
    rw [call_mem_deviceCall] at hc
    subst hc
    exact ⟨failMsg_mem_deviceCall ret _, rfl, Or.inr ⟨rfl, Or.inr rfl, rfl⟩⟩
  case rateUp =>
    intro hc
    rw [call_mem_deviceCall] at hc
    subst hc
    exact ⟨failMsg_mem_deviceCall ret _, rfl, Or.inr ⟨rfl, Or.inl rfl, rfl⟩⟩
  case freqDown =>
    intro hc
    rw [call_mem_deviceCall] at hc
    subst hc
    exact ⟨failMsg_mem_deviceCall ret _, rfl, Or.inl ⟨rfl, Or.inr rfl, rfl⟩⟩
  case freqUp =>
    intro hc
    rw [call_mem_deviceCall] at hc
    subst hc
    exact ⟨failMsg_mem_deviceCall ret _, rfl, Or.inl ⟨rfl, Or.inl rfl, rfl⟩⟩
  all_goals
    intros
    simp at *

/-- A device call issued by `keyEscape`: as for `keySwitch`, frequency only. -/
theorem keyEscape_call (ret : Int) (s : State) (c : DevCall)
    (hc : Effect.call c ∈ (keyEscape ret s).2) :
    (ret ≠ 0 → Effect.failMsg c ∈ (keyEscape ret s).2) ∧
    (keyEscape ret s).1.loop = s.loop ∧
    c = DevCall.setFrequency (keyEscape ret s).1.freq ∧
    ((keyEscape ret s).1.freq = s.freq + s.step ∨ (keyEscape ret s).1.freq = s.freq - s.step) ∧
    (keyEscape ret s).1.rate = s.rate := by
  revert hc
  simp only [keyEscape]
  split_ifs
  · intro hc
    simp only [List.mem_append, List.mem_cons, List.mem_singleton, call_mem_deviceCall,
      reduceCtorEq, false_or, List.not_mem_nil, or_false] at hc
    subst hc
    refine ⟨fun h => ?_, rfl, rfl, Or.inl rfl, rfl⟩
    exact List.mem_append_right _ (failMsg_mem_deviceCall ret _ h)
  · intro hc
    simp only [List.mem_append, List.mem_cons, List.mem_singleton, call_mem_deviceCall,
      reduceCtorEq, false_or, List.not_mem_nil, or_false] at hc
    subst hc
    refine ⟨fun h => ?_, rfl, rfl, Or.inr rfl, rfl⟩
    exact List.mem_append_right _ (failMsg_mem_deviceCall ret _ h)
  · intro hc
    simp at hc
  · intro hc
    simp at hc

/-- Neither `keySwitch` nor `keyEscape` ends the process. -/
theorem keySwitch_no_exit (ret code : Int) (s : State) :
    Effect.exit code ∉ (keySwitch ret s).2 := by
  apply keySwitch_cases (P := fun r => Effect.exit code ∉ r.2)
  case rateDown => intro _; exact exit_not_mem_deviceCall _ _ _
  case rateUp => exact exit_not_mem_deviceCall _ _ _
  case freqDown => exact exit_not_mem_deviceCall _ _ _
  case freqUp => exact exit_not_mem_deviceCall _ _ _
  all_goals
    intros
    simp

/-- The escape branch does not end the process either. -/
theorem keyEscape_no_exit (ret code : Int) (s : State) :
    Effect.exit code ∉ (keyEscape ret s).2 := by
  simp only [keyEscape]
  split_ifs <;> simp [exit_not_mem_deviceCall]
/-! ## Lemmas on rendering and on the loop -/

/-- The `header` count is non-negative from 25 columns on. -/
theorem headerCount_nonneg_iff (COLS : Int) : 0 ≤ headerCount COLS ↔ 25 ≤ COLS := by
  unfold headerCount
  rcases Int.lt_or_le (COLS - 26) 0 with h | h
  · obtain ⟨b, hb⟩ : ∃ b : Int, COLS - 26 = -b := ⟨-(COLS - 26), by omega⟩
    rw [hb, Int.neg_tdiv, Int.tdiv_eq_ediv (by omega) (by decide)]
    omega
  · have := Int.tdiv_nonneg h (by decide : (0 : Int) ≤ 2)
    constructor
    · intro _; omega
    · intro _; exact this

/-- The render step completes exactly from 25 columns on. -/
theorem render_isSome_iff (plot : Plotter) (s : State) (lpdft : List ℚ) (COLS LINES : Int) :
    (render plot s lpdft COLS LINES).isSome = true ↔ 25 ≤ COLS := by
  rw [← headerCount_nonneg_iff]
  unfold render stdString borderCount
  by_cases h : headerCount COLS < 0
  · simp [h]
  · have h25 : 25 ≤ COLS := (headerCount_nonneg_iff COLS).mp (not_lt.mp h)
    have hb : ¬ COLS < 0 := by omega
    simp [h, hb]
    omega

/-- From 25 columns on the render step does not throw. -/
theorem render_ne_none (plot : Plotter) (s : State) (lpdft : List ℚ) (COLS LINES : Int)
    (h : 25 ≤ COLS) : render plot s lpdft COLS LINES ≠ none := by
  intro hn
  have hs := (render_isSome_iff plot s lpdft COLS LINES).mpr h
  rw [hn] at hs
  cases hs

/-- The ways in which an iteration can end, with the state it leaves. -/
theorem loopBody_eq_some (plot : Plotter) (s s1 : State) (inp : IterInput) (o : Outcome)
    (h : loopBody plot s inp = some (s1, o)) :
    (o = Outcome.skipped ∧ s.peak_hold = false ∧ inp.now1 < s.next_refresh ∧
      s1 = { s with keys := s.keys ++ inp.typed }) ∨
    (o = Outcome.held (processFrame s.peak_hold s.last_lpdft inp.lpdft).1 ∧
      ¬ (s.peak_hold = false ∧ inp.now1 < s.next_refresh) ∧ inp.now2 < s.next_refresh ∧
      s1 = { s with
        keys := s.keys ++ inp.typed
        last_lpdft := (processFrame s.peak_hold s.last_lpdft inp.lpdft).2 }) ∨
    (∃ screen,
      o = Outcome.drawn (processFrame s.peak_hold s.last_lpdft inp.lpdft).1 screen
        (handleKeys inp.ret { s with
          keys := s.keys ++ inp.typed
          last_lpdft := (processFrame s.peak_hold s.last_lpdft inp.lpdft).2
          next_refresh := inp.now3 + framePeriod s.frame_rate }).2 ∧
      ¬ (s.peak_hold = false ∧ inp.now1 < s.next_refresh) ∧ ¬ inp.now2 < s.next_refresh ∧
      s1 = (handleKeys inp.ret { s with
          keys := s.keys ++ inp.typed
          last_lpdft := (processFrame s.peak_hold s.last_lpdft inp.lpdft).2
          next_refresh := inp.now3 + framePeriod s.frame_rate }).1) := by
  unfold loopBody at h
  simp only [] at h
  by_cases hskip : s.peak_hold = false ∧ inp.now1 < s.next_refresh
  · left
    have hc : (!s.peak_hold && decide (inp.now1 < s.next_refresh)) = true := by
      simp [hskip.1, hskip.2]
    rw [if_pos hc] at h
    simp only [Option.some.injEq, Prod.mk.injEq] at h
    exact ⟨h.2.symm, hskip.1, hskip.2, h.1.symm⟩
  · right
    have hc : ¬ (!s.peak_hold && decide (inp.now1 < s.next_refresh)) = true := by
      simpa using hskip
    rw [if_neg hc] at h
    by_cases hgate : inp.now2 < s.next_refresh
    · left
      rw [if_pos hgate] at h
      simp only [Option.some.injEq, Prod.mk.injEq] at h
      exact ⟨h.2.symm, hskip, hgate, h.1.symm⟩
    · right
      rw [if_neg hgate] at h
      split at h
      · cases h
      · rename_i screen _
        simp only [Option.some.injEq, Prod.mk.injEq] at h
        exact ⟨screen, h.2.symm, hskip, hgate, h.1.symm⟩

/-- With at least 25 columns an iteration does not abort. -/
theorem loopBody_isSome (plot : Plotter) (s : State) (inp : IterInput) (h : 25 ≤ inp.COLS) :
    ∃ r, loopBody plot s inp = some r := by
  unfold loopBody
  simp only []
  split_ifs
  · exact ⟨_, rfl⟩
  · exact ⟨_, rfl⟩
  · split
    · rename_i hr
      exact absurd hr (render_ne_none plot _ _ _ _ h)
    · exact ⟨_, rfl⟩
/-- A device call polls nothing. -/
theorem pollCount_deviceCall (ret : Int) (c : DevCall) : pollCount (deviceCall ret c) = 0 := by
  simp [deviceCall, exiterr, EXIT_ON_ERR, pollCount]
  split_ifs <;> rfl

/-- Polls of a concatenation. -/
theorem pollCount_append (a b : List Effect) :
    pollCount (a ++ b) = pollCount a + pollCount b := by
  induction a with
  | nil => simp [pollCount]
  | cons e es ih =>
    cases e <;> simp [pollCount, ih]
    omega

/-- The `switch` polls nothing. -/
theorem keySwitch_pollCount (ret : Int) (s : State) : pollCount (keySwitch ret s).2 = 0 := by
  apply keySwitch_cases (P := fun r => pollCount r.2 = 0)
  case rateDown => intro _; exact pollCount_deviceCall _ _
  case rateUp => exact pollCount_deviceCall _ _
  case freqDown => exact pollCount_deviceCall _ _
  case freqUp => exact pollCount_deviceCall _ _
  all_goals
    intros
    rfl

/-- After an escape byte two more bytes are read. -/
theorem keyEscape_pollCount (ret : Int) (s : State) (h : s.ch = ESC) :
    pollCount (keyEscape ret s).2 = 2 := by
  simp only [keyEscape, if_pos h]
  split_ifs <;>
    first
    | rw [pollCount_append, pollCount_deviceCall]; rfl
    | rfl

/-- The key handling polls once, and reads two more bytes after an escape. -/
theorem handleKeys_pollCount (ret : Int) (s : State) :
    pollCount (handleKeys ret s).2 = if (getch s.keys).1 = ESC then 3 else 1 := by
  rw [handleKeys_eq]
  split_ifs with h
  · simp only [pollCount]
    rw [keyEscape_pollCount ret _ h]
  · simp only [pollCount]
    rw [keySwitch_pollCount]

/-- A polled `q` clears the loop flag. -/
theorem handleKeys_quit (ret : Int) (s : State) (h : (getch s.keys).1 = key 'q') :
    (handleKeys ret s).1.loop = false := by
  have hne : ¬ (getch s.keys).1 = ESC := by
    rw [h]
    decide
  rw [handleKeys_eq, if_neg hne]
  simp [keySwitch, h, key]
/-! ## Lemmas on runs of the loop -/

/-- A run over a non-empty input list, taken apart. -/
theorem runLoop_cons_eq_some (plot : Plotter) (s sf : State) (inp : IterInput)
    (rest : List IterInput) (outs : List Outcome)
    (h : runLoop plot s (inp :: rest) = some (sf, outs)) :
    (s.loop = false ∧ sf = s ∧ outs = []) ∨
    (s.loop = true ∧ ∃ s1 o outs1, loopBody plot s inp = some (s1, o) ∧
      runLoop plot s1 rest = some (sf, outs1) ∧ outs = o :: outs1) := by
  rw [runLoop] at h
  by_cases hl : s.loop = true
  · right
    rw [if_pos hl] at h
    cases hb : loopBody plot s inp with
    | none => rw [hb] at h; cases h
    | some r =>
      obtain ⟨s1, o⟩ := r
      rw [hb] at h
      simp only [] at h
      cases hr : runLoop plot s1 rest with
      | none => rw [hr] at h; cases h
      | some r2 =>
        obtain ⟨sf2, outs1⟩ := r2
        rw [hr] at h
        simp only [Option.some.injEq, Prod.mk.injEq] at h
        exact ⟨hl, s1, o, outs1, rfl, by rw [hr, h.1], h.2.symm⟩
  · left
    rw [if_neg hl] at h
    simp only [Option.some.injEq, Prod.mk.injEq] at h
    exact ⟨by simpa using hl, h.1.symm, h.2.symm⟩

/-- The state before the first iteration is the initial state. -/
theorem stateAfter_zero (plot : Plotter) (s : State) (ins : List IterInput) :
    stateAfter plot s ins 0 = some s := by
  simp [stateAfter, runLoop]

/-- The states of a run after its first iteration are states of the run that
starts after that iteration. -/
theorem stateAfter_succ (plot : Plotter) (s s1 s2 : State) (inp : IterInput)
    (rest : List IterInput) (o : Outcome) (n : Nat) (hl : s.loop = true)
    (hb : loopBody plot s inp = some (s1, o)) (h : stateAfter plot s1 rest n = some s2) :
    stateAfter plot s (inp :: rest) (n + 1) = some s2 := by
  unfold stateAfter at h ⊢
  rw [List.take_succ_cons, runLoop, if_pos hl, hb]
  simp only []
  cases hr : runLoop plot s1 (List.take n rest) with
  | none => rw [hr] at h; cases h
  | some r =>
    rw [hr] at h
    simpa using h

/-- With at least 25 columns in every iteration a run does not abort. -/
theorem runLoop_isSome (plot : Plotter) (ins : List IterInput) :
    ∀ s : State, (∀ inp ∈ ins, 25 ≤ inp.COLS) → ∃ r, runLoop plot s ins = some r := by
  induction ins with
  | nil => intro s _; exact ⟨_, rfl⟩
  | cons inp rest ih =>
    intro s h
    rw [runLoop]
    by_cases hl : s.loop = true
    · rw [if_pos hl]
      obtain ⟨⟨s1, o⟩, hb⟩ := loopBody_isSome plot s inp (h inp (List.mem_cons_self _ _))
      obtain ⟨⟨sf, outs⟩, hr⟩ := ih s1 (fun i hi => h i (List.mem_cons_of_mem _ hi))
      rw [hb]
      simp only []
      rw [hr]
      exact ⟨_, rfl⟩
    · rw [if_neg hl]
      exact ⟨_, rfl⟩

/-- At 15 frames per second the frame period is 66,666 microseconds. -/
theorem framePeriod_15 : framePeriod 15 = 66666000 := by
  have h : (⌊(1000000 / 15 : ℚ)⌋ : Int) = 66666 := by
    rw [Int.floor_eq_iff]
    norm_num
  have hx : (0 : ℚ) ≤ 1000000 / 15 := by norm_num
  unfold framePeriod truncInt
  rw [if_pos hx, h]
  rfl

/-- With nothing pending the key handling only records `ERR` in `ch`. -/
theorem handleKeys_idle (ret : Int) (s : State) (h : s.keys = []) :
    handleKeys ret s = ({ s with ch := ERR, keys := [] }, [Effect.getch ERR]) := by
  simp [handleKeys, h, getch, keySwitch, keyEscape, key, ESC, ERR]

/-- An iteration that passes both gates with nothing pending and nothing
typed draws and changes `ch`, the retained frame and `next_refresh` only. -/
theorem loopBody_draws_idle (plot : Plotter) (s : State) (inp : IterInput)
    (hskip : ¬ (s.peak_hold = false ∧ inp.now1 < s.next_refresh))
    (hgate : ¬ inp.now2 < s.next_refresh) (hcols : 25 ≤ inp.COLS)
    (hkeys : s.keys = []) (htyped : inp.typed = []) :
    ∃ screen, loopBody plot s inp =
      some ({ s with
          ch := ERR
          keys := []
          last_lpdft := (processFrame s.peak_hold s.last_lpdft inp.lpdft).2
          next_refresh := inp.now3 + framePeriod s.frame_rate },
        Outcome.drawn (processFrame s.peak_hold s.last_lpdft inp.lpdft).1 screen
          [Effect.getch ERR]) := by
  obtain ⟨⟨s1, o⟩, hr⟩ := loopBody_isSome plot s inp hcols
  rcases loopBody_eq_some plot s s1 inp o hr with h | h | ⟨screen, ho, _, _, hs1⟩
  · exact absurd ⟨h.2.1, h.2.2.1⟩ hskip
  · exact absurd h.2.2.1 hgate
  · refine ⟨screen, ?_⟩
    rw [handleKeys_idle inp.ret _ (by simp [hkeys, htyped])] at ho hs1
    rw [hr, ho, hs1]

/-- In the run `peakInputs` from the defaults with peak hold on, the loop flag
is set and peak hold is on at the start of both iterations. -/
theorem peakInputs_flags (n : Nat) (s : State) (hn : n < peakInputs.length)
    (h : stateAfter blankPlot { defaults with peak_hold := true } peakInputs n = some s) :
    s.loop = true ∧ s.peak_hold = true := by
  match n with
  | 0 =>
    rw [stateAfter_zero] at h
    cases h
    exact ⟨rfl, rfl⟩
  | 1 =>
    obtain ⟨screen, h1⟩ := loopBody_draws_idle blankPlot { defaults with peak_hold := true }
      { quietInput 0 1 2 with lpdft := [-50, -60] } (by decide) (by decide) (by decide) rfl rfl
    unfold stateAfter at h
    rw [peakInputs, List.take_succ_cons, List.take_zero, runLoop,
      if_pos (show ({ defaults with peak_hold := true } : State).loop = true from rfl), h1] at h
    simp only [runLoop, Option.map_some', Option.some.injEq] at h
    rw [← h]
    exact ⟨rfl, rfl⟩
  | n + 2 =>
    simp [peakInputs] at hn

/-- An iteration that gets past line 216 with the clock below `next_refresh`
at line 234 retains the frame and ends there. -/
theorem loopBody_held (plot : Plotter) (s : State) (inp : IterInput)
    (hskip : ¬ (s.peak_hold = false ∧ inp.now1 < s.next_refresh))
    (hgate : inp.now2 < s.next_refresh) :
    loopBody plot s inp =
      some ({ s with
          keys := s.keys ++ inp.typed
          last_lpdft := (processFrame s.peak_hold s.last_lpdft inp.lpdft).2 },
        Outcome.held (processFrame s.peak_hold s.last_lpdft inp.lpdft).1) := by
  have hc : ¬ (!s.peak_hold && decide (inp.now1 < s.next_refresh)) = true := by
    simpa using hskip
  simp only [loopBody, if_neg hc, if_pos hgate]

/-- The run `peakInputs` from the defaults with peak hold on: the first
iteration draws `[-50, -60]`, the second stops at the refresh gate with
`[-40, -60]`, which is retained. -/
theorem peakInputs_run :
    ∃ screen,
      runLoop blankPlot { defaults with peak_hold := true } peakInputs =
        some ({ defaults with
            peak_hold := true
            ch := ERR
            last_lpdft := [-40, -60]
            next_refresh := 66666002 },
          [Outcome.drawn [-50, -60] screen [Effect.getch ERR], Outcome.held [-40, -60]]) := by
  obtain ⟨screen, h1⟩ := loopBody_draws_idle blankPlot { defaults with peak_hold := true }
    { quietInput 0 1 2 with lpdft := [-50, -60] } (by decide) (by decide) (by decide) rfl rfl
  have e1 : ({ ({ defaults with peak_hold := true } : State) with
      ch := ERR
      keys := []
      last_lpdft := (processFrame true [] [-50, -60]).2
      next_refresh := 2 + framePeriod defaults.frame_rate } : State) =
      { defaults with
        peak_hold := true, ch := ERR, last_lpdft := [-50, -60], next_refresh := 66666002 } := by
    have : defaults.frame_rate = 15 := rfl
    rw [this, framePeriod_15]
    rfl
  have h1' : loopBody blankPlot { defaults with peak_hold := true }
      { quietInput 0 1 2 with lpdft := [-50, -60] } =
      some ({ defaults with
          peak_hold := true, ch := ERR, last_lpdft := [-50, -60], next_refresh := 66666002 },
        Outcome.drawn [-50, -60] screen [Effect.getch ERR]) := by
    rw [← e1]
    exact h1
  have h2 := loopBody_held blankPlot
    { defaults with
      peak_hold := true, ch := ERR, last_lpdft := [-50, -60], next_refresh := 66666002 }
    { quietInput 10 11 12 with lpdft := [-40, -70] } (by decide) (by decide)
  have h2' : loopBody blankPlot
      { defaults with
        peak_hold := true, ch := ERR, last_lpdft := [-50, -60], next_refresh := 66666002 }
      { quietInput 10 11 12 with lpdft := [-40, -70] } =
      some ({ defaults with
          peak_hold := true, ch := ERR, last_lpdft := [-40, -60], next_refresh := 66666002 },
        Outcome.held [-40, -60]) := by
    rw [h2]
    decide
  refine ⟨screen, ?_⟩
  rw [peakInputs, runLoop,
    if_pos (show ({ defaults with peak_hold := true } : State).loop = true from rfl), h1']
  simp only []
  rw [runLoop, if_pos (show ({ defaults with
    peak_hold := true, ch := ERR, last_lpdft := [-50, -60], next_refresh := 66666002 } : State).loop
    = true from rfl), h2']
  simp only [runLoop]
/-! ## Lemmas on peak hold across iterations -/

/-- The peak-hold step keeps the length of the raw frame. -/
theorem processFrame_length (peak_hold : Bool) (last raw : List ℚ) :
    (processFrame peak_hold last raw).1.length = raw.length := by
  unfold processFrame
  dsimp only
  split_ifs
  · exact mergeLoop_length last raw.length 0 raw
  · rfl

/-- From an empty retained frame the peak-hold step returns the raw frame. -/
theorem processFrame_nil (peak_hold : Bool) (raw : List ℚ) :
    (processFrame peak_hold [] raw).1 = raw := by
  unfold processFrame
  dsimp only
  split_ifs with h
  · have h0 : raw.length = 0 := by
      simp only [Bool.and_eq_true, beq_iff_eq, List.length_nil] at h
      exact h.2.symm
    rw [h0]
    rfl
  · rfl

/-- With peak hold on and frames of one length, entry `i` of the result is the
maximum of the raw and the retained entry. -/
theorem processFrame_getD (last raw : List ℚ) (i : Nat) (hlen : last.length = raw.length)
    (hi : i < raw.length) :
    (processFrame true last raw).1.getD i 0 = max (raw.getD i 0) (last.getD i 0) := by
  have hc : (0 ≤ i ∧ i < 0 + raw.length) := by omega
  simp only [processFrame, hlen, beq_self_eq_true, Bool.and_self, if_true,
    List.getD_eq_getElem?_getD, mergeLoop_getElem?, if_pos hc, stdMax_eq_max]
  rw [List.getElem?_eq_getElem hi]
  rfl

/-- An iteration with peak hold on computes the frame and retains it, whether
it draws or not. -/
theorem loopBody_peak (plot : Plotter) (s s1 : State) (inp : IterInput) (o : Outcome)
    (hp : s.peak_hold = true) (hr : loopBody plot s inp = some (s1, o)) :
    s1.last_lpdft = (processFrame true s.last_lpdft inp.lpdft).1 ∧
    o.frame = some s1.last_lpdft := by
  rcases loopBody_eq_some plot s s1 inp o hr with h | h | ⟨screen, ho, _, _, hs1⟩
  · rw [hp] at h
    cases h.2.1
  · rw [h.1, h.2.2.2, hp]
    exact ⟨rfl, rfl⟩
  · rw [ho, hs1, (handleKeys_frame_state inp.ret _).2, hp]
    exact ⟨rfl, rfl⟩

/-- A run with peak hold on and the loop flag set at the start of every
iteration, frames of length `N` and a retained frame of length `N`: every
iteration is executed, and the frame retained at the end is entry by entry the
maximum of the frame retained at the start and the raw frames; the last
iteration produced it. -/
theorem peak_run (plot : Plotter) (N : Nat) (ins : List IterInput) :
    ∀ (s0 sf : State) (outs : List Outcome), runLoop plot s0 ins = some (sf, outs) →
      (∀ inp ∈ ins, inp.lpdft.length = N) →
      (∀ n s, n < ins.length → stateAfter plot s0 ins n = some s →
        s.loop = true ∧ s.peak_hold = true) →
      s0.last_lpdft.length = N →
      outs.length = ins.length ∧ sf.last_lpdft.length = N ∧
        (ins ≠ [] → outs.getLast?.bind Outcome.frame = some sf.last_lpdft) ∧
        ∀ i, i < N →
          s0.last_lpdft.getD i 0 ≤ sf.last_lpdft.getD i 0 ∧
          (∀ inp ∈ ins, inp.lpdft.getD i 0 ≤ sf.last_lpdft.getD i 0) ∧
          (sf.last_lpdft.getD i 0 = s0.last_lpdft.getD i 0 ∨
            ∃ inp ∈ ins, sf.last_lpdft.getD i 0 = inp.lpdft.getD i 0) := by
  induction ins with
  | nil =>
    intro s0 sf outs hrun _ _ hN
    simp only [runLoop, Option.some.injEq, Prod.mk.injEq] at hrun
    rw [← hrun.1, ← hrun.2]
    exact ⟨rfl, hN, fun h => absurd rfl h,
      fun i _ => ⟨le_refl _, fun inp h => absurd h (List.not_mem_nil _), Or.inl rfl⟩⟩
  | cons inp rest ih =>
    intro s0 sf outs hrun hlen hflags hN
    obtain ⟨hl, hp⟩ := hflags 0 s0 (by simp) (stateAfter_zero plot s0 _)
    rcases runLoop_cons_eq_some plot s0 sf inp rest outs hrun with
      ⟨hl0, _, _⟩ | ⟨_, s1, o, outs1, hbody, hrest, ho⟩
    · rw [hl] at hl0
      cases hl0
    subst ho
    obtain ⟨hs1, hframe⟩ := loopBody_peak plot s0 s1 inp o hp hbody
    have hraw : inp.lpdft.length = N := hlen inp (List.mem_cons_self _ _)
    have hN1 : s1.last_lpdft.length = N := by
      rw [hs1, processFrame_length, hraw]
    obtain ⟨hlen1, hNf, hlast, hmax⟩ := ih s1 sf outs1 hrest
      (fun i hi => hlen i (List.mem_cons_of_mem _ hi))
      (fun n s hn hs => hflags (n + 1) s (by simpa using hn)
        (stateAfter_succ plot s0 s1 s inp rest o n hl hbody hs))
      hN1
    refine ⟨by simp [hlen1], hNf, fun _ => ?_, fun i hi => ?_⟩
    · cases rest with
      | nil =>
        have h0 : outs1 = [] := List.eq_nil_of_length_eq_zero (by simpa using hlen1)
        subst h0
        simp only [runLoop, Option.some.injEq, Prod.mk.injEq] at hrest
        rw [← hrest.1]
        simpa using hframe
      | cons inp2 rest2 =>
        cases outs1 with
        | nil => simp at hlen1
        | cons o2 os =>
          rw [List.getLast?_cons_cons]
          exact hlast (by simp)
    · obtain ⟨h1, h2, h3⟩ := hmax i hi
      have hstep : s1.last_lpdft.getD i 0 = max (inp.lpdft.getD i 0) (s0.last_lpdft.getD i 0) := by
        rw [hs1]
        exact processFrame_getD _ _ i (by rw [hN, hraw]) (by rw [hraw]; exact hi)
      refine ⟨?_, ?_, ?_⟩
      · exact le_trans (by rw [hstep]; exact le_max_right _ _) h1
      · intro b hb
        rcases List.mem_cons.mp hb with hb | hb
        · subst hb
          exact le_trans (by rw [hstep]; exact le_max_left _ _) h1
        · exact h2 b hb
      · rcases h3 with h3 | ⟨b, hb, h3⟩
        · rw [h3, hstep]
          rcases max_choice (inp.lpdft.getD i 0) (s0.last_lpdft.getD i 0) with hm | hm
          · exact Or.inr ⟨inp, List.mem_cons_self _ _, hm⟩
          · exact Or.inl hm
        · exact Or.inr ⟨b, List.mem_cons_of_mem _ hb, h3⟩
/-! ## Peak-hold step -/

/-- C1: the peak-hold step `processFrame` (lines 224-230) returns a frame of the
length of the raw frame and retains exactly that frame as the new baseline;
with peak hold on and a prior frame of the same length every entry is the
maximum of the raw and the prior entry at that index; with peak hold off, or
with a prior frame of another length (an empty one included), the raw frame
comes back unmodified. Prior `[-50, -60]` and raw `[-40, -70]` give
`[-40, -70]` with peak hold off and `[-40, -60]` with peak hold on. -/
theorem processFrame_peak_hold_step (peak_hold : Bool) (p f : List ℚ) :
    (processFrame peak_hold p f).2 = (processFrame peak_hold p f).1 ∧
    (processFrame peak_hold p f).1.length = f.length ∧
    (peak_hold = true → p.length = f.length →
      ∀ (i : Nat) (a b : ℚ), f[i]? = some a → p[i]? = some b →
        (processFrame peak_hold p f).1[i]? = some (max a b)) ∧
    (¬ (peak_hold = true ∧ p.length = f.length) → (processFrame peak_hold p f).1 = f) ∧
    processFrame false [-50, -60] [-40, -70] = ([-40, -70], [-40, -70]) ∧
    processFrame true [-50, -60] [-40, -70] = ([-40, -60], [-40, -60]) := by
  refine ⟨rfl, ?_, ?_, ?_, ?_, ?_⟩
  · unfold processFrame
    dsimp only
    split_ifs
    · exact mergeLoop_length p f.length 0 f
    · rfl
  · intro hp hlen i a b hf hpi
    have hi : i < f.length := by
      rcases Nat.lt_or_ge i f.length with h | h
      · exact h
      · rw [List.getElem?_eq_none h] at hf
        cases hf
    have hc : (0 ≤ i ∧ i < 0 + f.length) := by omega
    simp only [processFrame, hp, hlen, beq_self_eq_true, Bool.and_self, if_true,
      mergeLoop_getElem?, if_pos hc, hf, Option.map_some', List.getD_eq_getElem?_getD, hpi,
      Option.getD_some, stdMax_eq_max]
  · intro h
    unfold processFrame
    dsimp only
    rw [if_neg]
    simpa using h
  · decide
  · decide

/-- C1 at peak hold on, prior `[-50, -60]`, raw `[-40, -70]`, index 1. -/
theorem processFrame_peak_hold_step_witness :
    (processFrame true [-50, -60] [-40, -70]).1[1]? = some (max (-70 : ℚ) (-60)) :=
  (processFrame_peak_hold_step true [-50, -60] [-40, -70]).2.2.1 rfl rfl 1 (-70) (-60) rfl rfl

/-! ## Tuning keys and device failures -/

/-- C2 (as amended): for every state and every key event that issues a device
call (`setFrequency` or `setSampleRate`: keys `f`, `F`, `r`, `R` and the arrow
escape sequences) which fails, the failure is reported, the process does not
exit and the loop flag is untouched, and the in-memory value is the one that
was passed to the failed call, the old value plus or minus the step, the other
of the two values being unchanged: it is not restored to its value before the
event. -/
theorem failed_tuning_keeps_requested (s : State) (ret : Int) (c : DevCall)
    (hfail : ret ≠ 0) (hc : Effect.call c ∈ (handleKeys ret s).2) :
    Effect.failMsg c ∈ (handleKeys ret s).2 ∧
    (∀ code, Effect.exit code ∉ (handleKeys ret s).2) ∧
    (handleKeys ret s).1.loop = s.loop ∧
    ((c = DevCall.setFrequency (handleKeys ret s).1.freq ∧
        ((handleKeys ret s).1.freq = s.freq + s.step ∨
          (handleKeys ret s).1.freq = s.freq - s.step) ∧
        (handleKeys ret s).1.rate = s.rate) ∨
     (c = DevCall.setSampleRate (handleKeys ret s).1.rate ∧
        ((handleKeys ret s).1.rate = s.rate + s.step ∨
          (handleKeys ret s).1.rate = s.rate - s.step) ∧
        (handleKeys ret s).1.freq = s.freq)) := by
  rw [handleKeys_eq] at hc ⊢
  split_ifs at hc ⊢
  · simp only [List.mem_cons, reduceCtorEq, false_or] at hc ⊢
    obtain ⟨h1, h2, h3, h4, h5⟩ := keyEscape_call ret _ c hc
    exact ⟨h1 hfail, fun code => keyEscape_no_exit ret code _, h2, Or.inl ⟨h3, h4, h5⟩⟩
  · simp only [List.mem_cons, reduceCtorEq, false_or] at hc ⊢
    obtain ⟨h1, h2, h3⟩ := keySwitch_call ret _ c hc
    exact ⟨h1 hfail, fun code => keySwitch_no_exit ret code _, h2, h3⟩

/-- C2 instance: from the defaults, key `F` with a failing `setFrequency`. -/
theorem failed_tuning_keeps_requested_witness :
    Effect.failMsg (DevCall.setFrequency 100100000) ∈
      (handleKeys (-1) { defaults with keys := [key 'F'] }).2 ∧
    (handleKeys (-1) { defaults with keys := [key 'F'] }).1.loop = true :=
  have hc : Effect.call (DevCall.setFrequency 100100000) ∈
      (handleKeys (-1) { defaults with keys := [key 'F'] }).2 := by
    simp [handleKeys, getch, keySwitch, keyEscape, key, ESC, defaults, deviceCall]
    norm_num
  have h := failed_tuning_keeps_requested { defaults with keys := [key 'F'] } (-1)
    (DevCall.setFrequency 100100000) (by decide) hc
  ⟨h.1, h.2.2.1⟩

/-- C2 as stated fails: from the defaults (frequency 100,000,000, step 100,000)
the key `F` with a failing `setFrequency` (return code -1) reports the failure
and leaves the frequency at 100,100,000, not at its value before the event. -/
theorem failed_tuning_changes_frequency :
    (handleKeys (-1) { defaults with keys := [key 'F'] }).2 =
      [Effect.getch (key 'F'), Effect.call (DevCall.setFrequency 100100000),
        Effect.failMsg (DevCall.setFrequency 100100000)] ∧
    (handleKeys (-1) { defaults with keys := [key 'F'] }).1.freq = 100100000 ∧
    (handleKeys (-1) { defaults with keys := [key 'F'] }).1.freq ≠
      ({ defaults with keys := [key 'F'] } : State).freq := by
  simp [handleKeys, getch, keySwitch, keyEscape, key, ESC, defaults, deviceCall, exiterr,
    EXIT_ON_ERR]
  norm_num
/-! ## Frequency stepping -/

/-- C4: from a state with sample rate above 0 and tuning step above 0, one
execution of the key handling (whatever is pending, whatever the device
answers) leaves the sample rate above 0 and the tuning step above 0; and with
the `r` key pending and `rate - step` not above 0 the sample rate is unchanged
and no device call is issued. -/
theorem rate_step_positive (s : State) (ret : Int) (hr : 0 < s.rate) (hs : 0 < s.step) :
    0 < (handleKeys ret s).1.rate ∧ 0 < (handleKeys ret s).1.step ∧
    (s.keys.head? = some (key 'r') → s.rate - s.step ≤ 0 →
      (handleKeys ret s).1.rate = s.rate ∧ deviceCalls (handleKeys ret s).2 = []) := by
  refine ⟨?_, ?_, ?_⟩
  · rw [handleKeys_eq]
    split_ifs
    · simp only []
      rw [keyEscape_keeps]
      exact hr
    · exact (keySwitch_rate_step ret { s with ch := (getch s.keys).1, keys := (getch s.keys).2 } hr hs).1
  · rw [handleKeys_eq]
    split_ifs
    · simp only []
      rw [keyEscape_keeps]
      exact hs
    · exact (keySwitch_rate_step ret { s with ch := (getch s.keys).1, keys := (getch s.keys).2 } hr hs).2
  · intro hk hle
    obtain ⟨rest, hrest⟩ : ∃ rest, s.keys = key 'r' :: rest := by
      cases hks : s.keys with
      | nil => rw [hks] at hk; cases hk
      | cons c rest =>
        rw [hks] at hk
        simp only [List.head?_cons, Option.some.injEq] at hk
        exact ⟨rest, by rw [hk]⟩
    have hng2 : ¬ s.step < s.rate := by linarith
    simp [handleKeys, hrest, getch, keySwitch, keyEscape, hng2, key, ESC, deviceCalls]


/-- C4 instance: rate 100,000 and step 100,000 with the `r` key pending. -/
theorem rate_step_positive_witness :
    0 < (handleKeys 0 { defaults with rate := 100000, keys := [key 'r'] }).1.rate ∧
    0 < (handleKeys 0 { defaults with rate := 100000, keys := [key 'r'] }).1.step ∧
    (handleKeys 0 { defaults with rate := 100000, keys := [key 'r'] }).1.rate = 100000 ∧
    deviceCalls (handleKeys 0 { defaults with rate := 100000, keys := [key 'r'] }).2 = [] :=
  have h := rate_step_positive { defaults with rate := 100000, keys := [key 'r'] } 0
    (by norm_num [defaults]) (by norm_num [defaults])
  ⟨h.1, h.2.1, h.2.2 rfl (by norm_num [defaults])⟩
/-! ## Floors of the frame rate and of the tuning step -/

/-- The `switch` keeps a positive frame rate positive, and a whole frame rate
of at least 1 whole and at least 1. -/
theorem keySwitch_frame_rate (ret : Int) (s : State) :
    (0 < s.frame_rate → 0 < (keySwitch ret s).1.frame_rate) ∧
    ((∃ n : Nat, 1 ≤ n ∧ s.frame_rate = n) →
      ∃ m : Nat, 1 ≤ m ∧ (keySwitch ret s).1.frame_rate = m) := by
  apply keySwitch_cases (P := fun r => (0 < s.frame_rate → 0 < r.1.frame_rate) ∧
    ((∃ n : Nat, 1 ≤ n ∧ s.frame_rate = n) → ∃ m : Nat, 1 ≤ m ∧ r.1.frame_rate = m))
  case fpsDown =>
    intro h
    refine ⟨fun _ => by simp only []; linarith, ?_⟩
    rintro ⟨n, hn, he⟩
    rw [he] at h
    have h2 : 2 ≤ n := by
      have : (1 : ℚ) < n := h
      exact_mod_cast this
    refine ⟨n - 1, by omega, ?_⟩
    simp only [he]
    rw [Nat.cast_sub hn]
    simp
  case fpsUp =>
    refine ⟨fun h => by simp only []; linarith, ?_⟩
    rintro ⟨n, hn, he⟩
    exact ⟨n + 1, by omega, by simp only [he]; push_cast; ring⟩
  all_goals
    intros
    exact ⟨fun h => h, fun h => h⟩

/-- C5 (as amended): a positive frame rate is still positive after any key
event, and a whole-number frame rate of at least 1 is again a whole number of
at least 1 after any key event (the `s` key included); for a frame rate that is
not a whole number the floor of 1 is not kept. -/
theorem frame_rate_floor (s : State) (ret : Int) :
    (0 < s.frame_rate → 0 < (handleKeys ret s).1.frame_rate) ∧
    ((∃ n : Nat, 1 ≤ n ∧ s.frame_rate = n) →
      ∃ m : Nat, 1 ≤ m ∧ (handleKeys ret s).1.frame_rate = m) := by
  rw [handleKeys_eq]
  split_ifs
  · simp only []
    rw [keyEscape_keeps]
    exact ⟨fun h => h, fun h => h⟩
  · exact keySwitch_frame_rate ret { s with ch := (getch s.keys).1, keys := (getch s.keys).2 }

/-- C5 instance: the default frame rate 15 with the `s` key pending. -/
theorem frame_rate_floor_witness :
    0 < (handleKeys 0 { defaults with keys := [key 's'] }).1.frame_rate ∧
    ∃ m : Nat, 1 ≤ m ∧ (handleKeys 0 { defaults with keys := [key 's'] }).1.frame_rate = m :=
  ⟨(frame_rate_floor { defaults with keys := [key 's'] } 0).1 (by norm_num [defaults]),
   (frame_rate_floor { defaults with keys := [key 's'] } 0).2 ⟨15, by decide, by norm_num [defaults]⟩⟩

/-- C5 as stated fails: a frame rate of 3/2 (at least 1) becomes 1/2 (below 1)
on the `s` key. -/
theorem frame_rate_below_one :
    (1 : ℚ) ≤ ({ defaults with frame_rate := 3 / 2, keys := [key 's'] } : State).frame_rate ∧
    (handleKeys 0 { defaults with frame_rate := 3 / 2, keys := [key 's'] }).1.frame_rate = 1 / 2 ∧
    ¬ (1 : ℚ) ≤ (handleKeys 0 { defaults with frame_rate := 3 / 2, keys := [key 's'] }).1.frame_rate := by
  simp [handleKeys, getch, keySwitch, keyEscape, key, ESC, defaults]
  norm_num
/-- C6 (as amended): with the `t` key pending, a tuning step above 1 is halved
and the result is above 1/2 (above 1 only when the step was above 2), and a
tuning step of at most 1 is left as it is. -/
theorem step_halving (s : State) (ret : Int) (hk : s.keys.head? = some (key 't')) :
    (1 < s.step → (handleKeys ret s).1.step = s.step / 2 ∧ 1 / 2 < (handleKeys ret s).1.step) ∧
    (2 < s.step → 1 < (handleKeys ret s).1.step) ∧
    (s.step ≤ 1 → (handleKeys ret s).1.step = s.step) := by
  obtain ⟨rest, hrest⟩ : ∃ rest, s.keys = key 't' :: rest := by
    cases hks : s.keys with
    | nil => rw [hks] at hk; cases hk
    | cons c rest =>
      rw [hks] at hk
      simp only [List.head?_cons, Option.some.injEq] at hk
      exact ⟨rest, by rw [hk]⟩
  have hstep : (handleKeys ret s).1.step = if s.step > 1 then s.step / 2 else s.step := by
    simp [handleKeys, hrest, getch, keySwitch, keyEscape, key, ESC]
    split_ifs <;> rfl
  rw [hstep]
  refine ⟨fun h => ?_, fun h => ?_, fun h => ?_⟩
  · rw [if_pos h]
    exact ⟨rfl, by linarith⟩
  · rw [if_pos (by linarith : s.step > 1)]
    linarith
  · rw [if_neg (not_lt.mpr h)]

/-- C6 instance: the default step 100,000 with the `t` key pending. -/
theorem step_halving_witness :
    (handleKeys 0 { defaults with keys := [key 't'] }).1.step = 100000 / 2 ∧
    1 / 2 < (handleKeys 0 { defaults with keys := [key 't'] }).1.step :=
  (step_halving { defaults with keys := [key 't'] } 0 rfl).1 (by norm_num [defaults])

/-- C6 as stated fails: a tuning step of 2 (above 1) becomes 1 (not above 1)
on the `t` key. -/
theorem step_halved_to_one :
    (1 : ℚ) < ({ defaults with step := 2, keys := [key 't'] } : State).step ∧
    (handleKeys 0 { defaults with step := 2, keys := [key 't'] }).1.step = 1 ∧
    ¬ (1 : ℚ) < (handleKeys 0 { defaults with step := 2, keys := [key 't'] }).1.step := by
  simp [handleKeys, getch, keySwitch, keyEscape, key, ESC, defaults]
/-! ## Spacing of the draws -/

/-- C8 (as amended): one loop iteration polls the keyboard and applies the
binding of the pending key only when it passes the refresh gates and draws
(clock not below `next_refresh` at line 234, and at line 215 as well when peak
hold is off): then it calls `getch` exactly once, and twice more when the
polled byte is ESC, and a pending `q` clears the loop flag in that iteration.
An iteration that the scheduler cuts short (clock below `next_refresh`)
performs no poll: the pending keys stay queued and every parameter and the
loop flag are unchanged, the retained frame apart. -/
theorem key_poll_gated (plot : Plotter) (s : State) (inp : IterInput) :
    (s.peak_hold = false ∧ inp.now1 < s.next_refresh →
      loopBody plot s inp = some ({ s with keys := s.keys ++ inp.typed }, Outcome.skipped)) ∧
    (¬ (s.peak_hold = false ∧ inp.now1 < s.next_refresh) → inp.now2 < s.next_refresh →
      loopBody plot s inp =
        some ({ s with
            keys := s.keys ++ inp.typed
            last_lpdft := (processFrame s.peak_hold s.last_lpdft inp.lpdft).2 },
          Outcome.held (processFrame s.peak_hold s.last_lpdft inp.lpdft).1)) ∧
    (¬ (s.peak_hold = false ∧ inp.now1 < s.next_refresh) → ¬ inp.now2 < s.next_refresh →
      25 ≤ inp.COLS →
      ∃ (screen : List Printed) (s1 : State) (io : List Effect),
        loopBody plot s inp =
          some (s1, Outcome.drawn (processFrame s.peak_hold s.last_lpdft inp.lpdft).1 screen io) ∧
        (s1, io) = handleKeys inp.ret { s with
            keys := s.keys ++ inp.typed
            last_lpdft := (processFrame s.peak_hold s.last_lpdft inp.lpdft).2
            next_refresh := inp.now3 + framePeriod s.frame_rate } ∧
        pollCount io = (if (getch (s.keys ++ inp.typed)).1 = ESC then 3 else 1) ∧
        ((getch (s.keys ++ inp.typed)).1 = key 'q' → s1.loop = false)) := by
  refine ⟨fun hskip => ?_, fun hskip hgate => ?_, fun hskip hgate hcols => ?_⟩
  · have hc : (!s.peak_hold && decide (inp.now1 < s.next_refresh)) = true := by
      simp [hskip.1, hskip.2]
    simp only [loopBody, if_pos hc]
  · have hc : ¬ (!s.peak_hold && decide (inp.now1 < s.next_refresh)) = true := by
      simpa using hskip
    simp only [loopBody, if_neg hc, if_pos hgate]
  · have hc : ¬ (!s.peak_hold && decide (inp.now1 < s.next_refresh)) = true := by
      simpa using hskip
    obtain ⟨⟨s1, o⟩, hr⟩ := loopBody_isSome plot s inp hcols
    rcases loopBody_eq_some plot s s1 inp o hr with h | h | ⟨screen, ho, _, _, hs1⟩
    · exact absurd ⟨h.2.1, h.2.2.1⟩ hskip
    · exact absurd h.2.2.1 hgate
    · subst ho
      subst hs1
      exact ⟨screen, _, _, hr, rfl, handleKeys_pollCount inp.ret _,
        fun hq => handleKeys_quit inp.ret _ hq⟩

/-- C8 instances: with `q` pending, an iteration before `next_refresh` is cut
short without a poll, and an iteration at or after it draws and clears the loop
flag. -/
theorem key_poll_gated_witness :
    loopBody blankPlot { defaults with next_refresh := 1000, keys := [key 'q'] }
        (quietInput 0 1 2) =
      some ({ defaults with next_refresh := 1000, keys := [key 'q'] ++ [] }, Outcome.skipped) ∧
    ∃ (screen : List Printed) (s1 : State) (io : List Effect),
      loopBody blankPlot { defaults with keys := [key 'q'] } (quietInput 0 1 2) =
        some (s1, Outcome.drawn [] screen io) ∧ s1.loop = false :=
  ⟨(key_poll_gated blankPlot { defaults with next_refresh := 1000, keys := [key 'q'] }
      (quietInput 0 1 2)).1 ⟨rfl, by decide⟩,
   match (key_poll_gated blankPlot { defaults with keys := [key 'q'] }
      (quietInput 0 1 2)).2.2 (by decide) (by decide) (by decide) with
   | ⟨screen, s1, io, h1, _, _, h4⟩ => ⟨screen, s1, io, h1, h4 rfl⟩⟩

/-- C8 as stated fails: with peak hold off, `next_refresh` at tick 1000 and the
clock at tick 0, an iteration with `q` pending ends at line 216 without a poll:
the `q` is still queued and the loop flag is still set. -/
theorem pending_quit_not_polled :
    loopBody blankPlot { defaults with next_refresh := 1000, keys := [key 'q'] }
        (quietInput 0 1 2) =
      some ({ defaults with next_refresh := 1000, keys := [key 'q'] }, Outcome.skipped) ∧
    ({ defaults with next_refresh := 1000, keys := [key 'q'] } : State).loop = true := by
  constructor
  · simp [loopBody, defaults, quietInput]
  · rfl
/-! ## Sizes computed by the render step -/

/-- C9 (as amended): for every terminal width `COLS` of at least 25 and every
height, with the control overlay shown or hidden, the render step completes
and the lengths it computes itself, the title-rule fill `(COLS - 26) / 2` and
the separator length `COLS`, are not negative; the layout height it passes on
(`LINES - 5` with the overlay, `LINES` without) is not negative when `LINES` is
at least 5, or at least 0 with the overlay hidden. `dft_to_plot` is a total
parameter here. -/
theorem render_sizes (plot : Plotter) (s : State) (lpdft : List ℚ) (COLS LINES : Int)
    (hc : 25 ≤ COLS) :
    (render plot s lpdft COLS LINES).isSome = true ∧
    0 ≤ headerCount COLS ∧ 0 ≤ borderCount COLS ∧
    (5 ≤ LINES ∨ (s.show_controls = false ∧ 0 ≤ LINES) →
      0 ≤ plotHeight s.show_controls LINES) := by
  refine ⟨(render_isSome_iff plot s lpdft COLS LINES).mpr hc,
    (headerCount_nonneg_iff COLS).mpr hc, ?_, ?_⟩
  · unfold borderCount
    omega
  · intro h
    unfold plotHeight
    rcases h with h | ⟨h1, h2⟩
    · split_ifs <;> omega
    · rw [h1]
      simpa using h2

/-- C9 instance: an 80 x 24 terminal with the overlay shown. -/
theorem render_sizes_witness :
    (render blankPlot defaults [] 80 24).isSome = true ∧
    0 ≤ headerCount 80 ∧ 0 ≤ borderCount 80 ∧ 0 ≤ plotHeight defaults.show_controls 24 :=
  have h := render_sizes blankPlot defaults [] 80 24 (by decide)
  ⟨h.1, h.2.1, h.2.2.1, h.2.2.2 (Or.inl (by decide))⟩

/-- C9 as stated fails: on a terminal 10 columns wide the title-rule fill
length is -8, and the render step throws, with the overlay shown and with it
hidden; on a terminal 3 lines high the layout height with the overlay is -2. -/
theorem render_fails_when_narrow :
    headerCount 10 = -8 ∧
    render blankPlot defaults [] 10 24 = none ∧
    render blankPlot { defaults with show_controls := false } [] 10 24 = none ∧
    plotHeight true 3 = -2 := by
  refine ⟨by decide, ?_, ?_, by decide⟩
  · have h : headerCount 10 = -8 := by decide
    simp [render, stdString, h]
  · have h : headerCount 10 = -8 := by decide
    simp [render, stdString, h]
/-! ## No peak is lost while peak hold is on -/

/-- C10: start the loop with nothing retained and let it process the raw frames
of `k` iterations, `k` at least 1, all of length `N`, with the loop flag set and
peak hold on at the start of each of these iterations. When the loop has
processed them, all `k` iterations were executed, whether they drew or stopped
at the refresh gate, and the frame produced by the last one and the frame
retained after it are the same frame of length `N`, whose entry `i` is, for
every `i` below `N`, the maximum over the raw frames of their entry `i`: no raw
frame exceeds it and one of them attains it. And the loop does process them
when the terminal has at least 25 columns in every iteration. -/
theorem peak_hold_keeps_maximum (plot : Plotter) (s0 : State) (ins : List IterInput) (N : Nat)
    (hk : 1 ≤ ins.length) (hempty : s0.last_lpdft = [])
    (hlen : ∀ inp ∈ ins, inp.lpdft.length = N)
    (hflags : ∀ n s, n < ins.length → stateAfter plot s0 ins n = some s →
      s.loop = true ∧ s.peak_hold = true) :
    (∀ (sf : State) (outs : List Outcome), runLoop plot s0 ins = some (sf, outs) →
      outs.length = ins.length ∧
      outs.getLast?.bind Outcome.frame = some sf.last_lpdft ∧
      sf.last_lpdft.length = N ∧
      ∀ i, i < N →
        (∀ inp ∈ ins, inp.lpdft.getD i 0 ≤ sf.last_lpdft.getD i 0) ∧
        (∃ inp ∈ ins, sf.last_lpdft.getD i 0 = inp.lpdft.getD i 0)) ∧
    ((∀ inp ∈ ins, 25 ≤ inp.COLS) → ∃ r, runLoop plot s0 ins = some r) := by
  refine ⟨fun sf outs hrun => ?_, runLoop_isSome plot ins s0⟩
  cases ins with
  | nil => simp at hk
  | cons inp rest =>
    obtain ⟨hl, hp⟩ := hflags 0 s0 (by simp) (stateAfter_zero plot s0 _)
    rcases runLoop_cons_eq_some plot s0 sf inp rest outs hrun with
      ⟨hl0, _, _⟩ | ⟨_, s1, o, outs1, hbody, hrest, ho⟩
    · rw [hl] at hl0
      cases hl0
    subst ho
    obtain ⟨hs1, hframe⟩ := loopBody_peak plot s0 s1 inp o hp hbody
    rw [hempty, processFrame_nil] at hs1
    have hraw : inp.lpdft.length = N := hlen inp (List.mem_cons_self _ _)
    obtain ⟨hlen1, hNf, hlast, hmax⟩ := peak_run plot N rest s1 sf outs1 hrest
      (fun i hi => hlen i (List.mem_cons_of_mem _ hi))
      (fun n s hn hs => hflags (n + 1) s (by simpa using hn)
        (stateAfter_succ plot s0 s1 s inp rest o n hl hbody hs))
      (by rw [hs1, hraw])
    refine ⟨by simp [hlen1], ?_, hNf, fun i hi => ?_⟩
    · cases rest with
      | nil =>
        have h0 : outs1 = [] := List.eq_nil_of_length_eq_zero (by simpa using hlen1)
        subst h0
        simp only [runLoop, Option.some.injEq, Prod.mk.injEq] at hrest
        rw [← hrest.1]
        simpa using hframe
      | cons inp2 rest2 =>
        cases outs1 with
        | nil => simp at hlen1
        | cons o2 os =>
          rw [List.getLast?_cons_cons]
          exact hlast (by simp)
    · obtain ⟨h1, h2, h3⟩ := hmax i hi
      rw [hs1] at h1 h3
      refine ⟨fun b hb => ?_, ?_⟩
      · rcases List.mem_cons.mp hb with hb | hb
        · subst hb
          exact h1
        · exact h2 b hb
      · rcases h3 with h3 | ⟨b, hb, h3⟩
        · exact ⟨inp, List.mem_cons_self _ _, h3⟩
        · exact ⟨b, List.mem_cons_of_mem _ hb, h3⟩

/-- C10 instance: the raw frames `[-50, -60]` and `[-40, -70]` with peak hold
on; the second iteration stops at the refresh gate, and the frame retained at
the end is `[-40, -60]`. -/
theorem peak_hold_keeps_maximum_witness :
    ∃ sf outs, runLoop blankPlot { defaults with peak_hold := true } peakInputs = some (sf, outs) ∧
      sf.last_lpdft = [-40, -60] ∧ outs.map Outcome.isDrawn = [true, false] ∧
      outs.length = peakInputs.length ∧
      outs.getLast?.bind Outcome.frame = some sf.last_lpdft ∧
      sf.last_lpdft.length = 2 ∧
      ∀ i, i < 2 →
        (∀ inp ∈ peakInputs, inp.lpdft.getD i 0 ≤ sf.last_lpdft.getD i 0) ∧
        (∃ inp ∈ peakInputs, sf.last_lpdft.getD i 0 = inp.lpdft.getD i 0) :=
  have h := peak_hold_keeps_maximum blankPlot { defaults with peak_hold := true } peakInputs 2
    (by decide) rfl (by decide) peakInputs_flags
  match peakInputs_run with
  | ⟨_, hrun⟩ => ⟨_, _, hrun, rfl, rfl, h.1 _ _ hrun⟩
end Retrogram
